import Mathlib

set_option maxHeartbeats 1000000

/-!
Shallow embedding of `backend/services/timeline_aggregator.py`.

The aggregator reads a corpus of timeline JSON files plus a corpus of match
JSON files, resolves the target player's 1-based participant index per match,
classifies positioned events into four categories (deaths, kills, assists,
objectives), and assembles heatmap point lists, summary counters and dense
per-minute timeline series.

Modelling conventions:
* The external match-file corpus (`matches_dir` + `_get_participant_id_for_puuid`'s
  glob / read / parse, lines 21-42) is modelled as a function
  `matchDb : String → Option (List String)` from match id to the participant
  puuid list; `none` covers "no match file found" and "read or parse error",
  both of which make the Python helper return `None`.
* A timeline file is a `CorpusFile`: its filename plus `content : Option TimelineRecord`;
  `content = none` models a read/JSON-parse failure or missing `metadata.matchId`
  (an exception raised before any event of the record is processed, caught at
  lines 76-78 and 198-200).
* Inside a parsed record, `info = none` models a record whose `['info']['frames']`
  access raises (second pass only; the first pass reads only `metadata.matchId`).
* A JSON event is an `Event`.  `Option` fields model possibly-missing keys:
  `event['timestamp']` / `event['type']` raise `KeyError` when missing, which the
  embedding signals as `Except.error ()`; `event.get(...)` accesses never raise.
  `position` is an association list of coordinate fields: Python's truthiness
  test `if not event.get('position')` is false for a missing key and for an
  empty object, so the embedding skips on `none` and on the empty list.
  `assistingParticipantIds` uses `event.get(..., [])`, so a missing key and an
  empty list are indistinguishable and both are modelled as `[]`.
* `defaultdict(int)` minute-bucket maps (lines 100-105) are only ever mutated by
  `[m] += 1`, so each one is exactly the multiset of recorded minutes; the
  embedding stores the list of recorded minutes, with
  `minute_buckets.get(m, 0) = List.count m buckets`,
  `minute_buckets` empty iff the list is empty, and
  `max(minute_buckets.keys()) = maxKey buckets`.
* `average_per_game` (line 245) is `round(count / total_matches, 2)` computed on
  IEEE-754 doubles with Python's round-half-to-even; the embedding records the
  exact rational `count / total_matches` instead (the 2-decimal float rounding
  is outside the shallow embedding).
* Machine integers: all ids, coordinates and timestamps are unbounded `Int`s,
  which matches Python's arbitrary-precision ints.  `timestamp // 60000` is
  Python floor division, i.e. `Int.fdiv`.
-/

/-- One timeline event (the JSON dicts iterated at line 126). -/
structure Event where
  position : Option (List (String × Int))
  timestamp : Option Int
  type : Option String
  killerId : Option Int
  victimId : Option Int
  assistingParticipantIds : List Int
  monsterType : Option String
  buildingType : Option String

/-- One frame (line 124); `frame.get('events', [])` defaults a missing key to `[]`. -/
structure Frame where
  events : List Event

/-- One parsed timeline record: `metadata.matchId` plus `info.frames`
(`info = none`: the `['info']['frames']` access raises). -/
structure TimelineRecord where
  matchId : String
  info : Option (List Frame)

/-- One file of the timeline corpus: filename plus parsed content
(`content = none`: read/parse failure). -/
structure CorpusFile where
  name : String
  content : Option TimelineRecord

/-- The category-specific fifth key of a heatmap point dict
(lines 143, 155, 167, 179, 193). -/
inductive PeerField where
  | killer (id : Option Int)
  | victim (id : Option Int)
  | monster (t : Option String)
  | building (t : Option String)

/-- A heatmap point: `{'x', 'y', 'timestamp', 'match_id', <peer>}`. -/
structure HeatPoint where
  x : Int
  y : Int
  timestamp : Int
  match_id : String
  peer : PeerField

/-- One entry of a finalized timeline series (lines 241-246).  The source's
`average_per_game` is `round(count / total_matches, 2)` on floats; the embedding
keeps the exact rational quotient. -/
structure TimelineEntry where
  minute : Int
  count : Nat
  cumulative : Nat
  average_per_game : ℚ

/-- The `stats` dict (lines 90-96). -/
structure Stats where
  total_matches : Nat
  deaths_count : Nat
  kills_count : Nat
  assists_count : Nat
  objectives_count : Nat

/-- The `heatmap_data` dict (lines 83-88). -/
structure HeatmapData where
  deaths : List HeatPoint
  kills : List HeatPoint
  assists : List HeatPoint
  objectives : List HeatPoint

/-- The `timeline_data` dict (lines 208-213). -/
structure TimelineData where
  deaths : List TimelineEntry
  kills : List TimelineEntry
  assists : List TimelineEntry
  objectives : List TimelineEntry

/-- The dict returned by `generate_heatmap_data` (lines 215-221). -/
structure Response where
  player_puuid : String
  player_name : String
  stats : Stats
  heatmap_data : HeatmapData
  timeline_data : TimelineData

/-- Mutable accumulator state of the second pass: the three families of
per-category accumulators (`heatmap_data` lists, `stats` counters,
`timeline_stats` minute buckets as recorded-minute lists). -/
structure AggState where
  deaths : List HeatPoint
  kills : List HeatPoint
  assists : List HeatPoint
  objectives : List HeatPoint
  deaths_count : Nat
  kills_count : Nat
  assists_count : Nat
  objectives_count : Nat
  tDeaths : List Int
  tKills : List Int
  tAssists : List Int
  tObjectives : List Int

def initState : AggState :=
  ⟨[], [], [], [], 0, 0, 0, 0, [], [], [], []⟩

/-- `minute_bucket = timestamp // 60000` (line 134); Python `//` is floor division. -/
def minuteBucket (ts : Int) : Int := Int.fdiv ts 60000

/-- The per-event body of the loop at lines 126-196.  `Except.error ()` models a
raised exception (missing `timestamp` or `type` key, or a matched branch whose
position object lacks `x` or `y`); a raise happens before any mutation, so the
error carries no state change. -/
def processEvent (pid : Int) (mid : String) (st : AggState) (e : Event) :
    Except Unit AggState :=
  match e.position with
  | none => .ok st
  | some pos =>
    if pos.isEmpty then .ok st
    else
      match e.timestamp with
      | none => .error ()
      | some ts =>
        match e.type with
        | none => .error ()
        | some ty =>
          if ty = "CHAMPION_KILL" ∧ e.victimId = some pid then
            match pos.lookup "x", pos.lookup "y" with
            | some x, some y =>
              .ok { st with
                deaths := st.deaths ++ [⟨x, y, ts, mid, PeerField.killer e.killerId⟩],
                deaths_count := st.deaths_count + 1,
                tDeaths := st.tDeaths ++ [minuteBucket ts] }
            | _, _ => .error ()
          else if ty = "CHAMPION_KILL" ∧ e.killerId = some pid then
            match pos.lookup "x", pos.lookup "y" with
            | some x, some y =>
              .ok { st with
                kills := st.kills ++ [⟨x, y, ts, mid, PeerField.victim e.victimId⟩],
                kills_count := st.kills_count + 1,
                tKills := st.tKills ++ [minuteBucket ts] }
            | _, _ => .error ()
          else if ty = "CHAMPION_KILL" ∧ pid ∈ e.assistingParticipantIds then
            match pos.lookup "x", pos.lookup "y" with
            | some x, some y =>
              .ok { st with
                assists := st.assists ++ [⟨x, y, ts, mid, PeerField.victim e.victimId⟩],
                assists_count := st.assists_count + 1,
                tAssists := st.tAssists ++ [minuteBucket ts] }
            | _, _ => .error ()
          else if ty = "ELITE_MONSTER_KILL" ∧ e.killerId = some pid then
            match pos.lookup "x", pos.lookup "y" with
            | some x, some y =>
              .ok { st with
                objectives := st.objectives ++ [⟨x, y, ts, mid, PeerField.monster e.monsterType⟩],
                objectives_count := st.objectives_count + 1,
                tObjectives := st.tObjectives ++ [minuteBucket ts] }
            | _, _ => .error ()
          else if ty = "BUILDING_KILL" then
            if pid ∈ e.assistingParticipantIds ∨ e.killerId = some pid then
              match pos.lookup "x", pos.lookup "y" with
              | some x, some y =>
                .ok { st with
                  objectives := st.objectives ++ [⟨x, y, ts, mid, PeerField.building e.buildingType⟩],
                  objectives_count := st.objectives_count + 1,
                  tObjectives := st.tObjectives ++ [minuteBucket ts] }
              | _, _ => .error ()
            else .ok st
          else .ok st

/-- The event loop of one frame.  A raised exception aborts the rest of the
record but keeps all mutations made so far (`.error st` carries the state at the
moment of the raise, matching the `except` handler at lines 198-200). -/
def processEventList (pid : Int) (mid : String) (st : AggState) :
    List Event → Except AggState AggState
  | [] => .ok st
  | e :: es =>
    match processEvent pid mid st e with
    | .ok st2 => processEventList pid mid st2 es
    | .error _ => .error st

/-- The frame loop at line 124; an exception inside a frame aborts the
remaining frames of the record as well. -/
def processFrameList (pid : Int) (mid : String) (st : AggState) :
    List Frame → Except AggState AggState
  | [] => .ok st
  | f :: fs =>
    match processEventList pid mid st f.events with
    | .ok st2 => processFrameList pid mid st2 fs
    | .error st2 => .error st2

/-- Collapse the exception marker: whether the record finished or raised, the
accumulated state is kept and aggregation proceeds with the next record. -/
def exceptState : Except AggState AggState → AggState
  | .ok st => st
  | .error st => st

/-- `_get_participant_id_for_puuid` (lines 21-42): 1-based index of the first
occurrence of the target puuid in the match's participant list, `none` when the
match record is unavailable or the puuid is absent. -/
def findIdx1 (target : String) : List String → Int → Option Int
  | [], _ => none
  | p :: ps, i => if p = target then some i else findIdx1 target ps (i + 1)

def get_participant_id_for_puuid (matchDb : String → Option (List String))
    (matchId targetPuuid : String) : Option Int :=
  match matchDb matchId with
  | none => none
  | some participants => findIdx1 targetPuuid participants 1

/-- Python dict assignment `d[k] = v`: overwrite an existing key, else append. -/
def mapInsert (m : List (String × Int)) (k : String) (v : Int) : List (String × Int) :=
  if (m.lookup k).isSome then
    m.map (fun p => if p.1 = k then (k, v) else p)
  else m ++ [(k, v)]

/-- One step of the first pass (lines 62-78): skip the reserved summary
artifact, skip unreadable records, resolve the participant id and retain it
when truthy (`if participant_id:` at line 73 — `None` and `0` are falsy). -/
def buildMapStep (matchDb : String → Option (List String)) (targetPuuid : String)
    (m : List (String × Int)) (f : CorpusFile) : List (String × Int) :=
  if f.name = "fetch_summary.json" then m
  else
    match f.content with
    | none => m
    | some rec =>
      match get_participant_id_for_puuid matchDb rec.matchId targetPuuid with
      | none => m
      | some pid => if pid ≠ 0 then mapInsert m rec.matchId pid else m

/-- The first pass: build `puuid_to_participant_map` (lines 60-78). -/
def buildMap (matchDb : String → Option (List String)) (targetPuuid : String)
    (files : List CorpusFile) : List (String × Int) :=
  files.foldl (buildMapStep matchDb targetPuuid) []

/-- One step of the second pass (lines 108-200): skip the reserved artifact,
skip unreadable records, skip matches without a retained mapping, then run the
frame loop; an in-record exception keeps the state built so far. -/
def processFile (pmap : List (String × Int)) (st : AggState) (f : CorpusFile) : AggState :=
  if f.name = "fetch_summary.json" then st
  else
    match f.content with
    | none => st
    | some rec =>
      match pmap.lookup rec.matchId with
      | none => st
      | some pid =>
        match rec.info with
        | none => st
        | some frames => exceptState (processFrameList pid rec.matchId st frames)

/-- Largest key of the minute-bucket dict: `max(minute_buckets.keys())`
(line 232), over the recorded-minute list representation. -/
def maxKey : List Int → Int
  | [] => 0
  | m :: ms => ms.foldl max m

/-- Python `range(0, n)` over integers: `0, 1, ..., n-1`, empty when `n ≤ 0`. -/
def intRange (n : Int) : List Int := (List.range n.toNat).map Int.ofNat

/-- The loop body of `_format_timeline_data` (lines 234-246), carrying the
running `cumulative` total along the minute range. -/
def buildEntries (buckets : List Int) (total_matches : Nat) :
    List Int → Nat → List TimelineEntry
  | [], _ => []
  | m :: ms, cum =>
    let count := List.count m buckets
    let cum2 := cum + count
    { minute := m, count := count, cumulative := cum2,
      average_per_game := (count : ℚ) / (total_matches : ℚ) }
      :: buildEntries buckets total_matches ms cum2

/-- `_format_timeline_data` (lines 223-248). -/
def format_timeline_data (buckets : List Int) (total_matches : Nat) :
    List TimelineEntry :=
  if buckets.isEmpty then []
  else buildEntries buckets total_matches (intRange (maxKey buckets + 1)) 0

/-- `_empty_response` (lines 250-274). -/
def empty_response (puuid player_name : String) : Response :=
  { player_puuid := puuid
    player_name := player_name
    stats := ⟨0, 0, 0, 0, 0⟩
    heatmap_data := ⟨[], [], [], []⟩
    timeline_data := ⟨[], [], [], []⟩ }

/-- The non-short-circuit branch of `generate_heatmap_data` (lines 59-221):
first pass, second pass, `total_matches = len(map) or 1` for averages
(line 206), and final assembly. -/
def mkResponse (matchDb : String → Option (List String)) (files : List CorpusFile)
    (target_puuid player_name : String) : Response :=
  let pmap := buildMap matchDb target_puuid files
  let st := files.foldl (processFile pmap) initState
  let total_matches := if pmap.length = 0 then 1 else pmap.length
  { player_puuid := target_puuid
    player_name := player_name
    stats := ⟨pmap.length, st.deaths_count, st.kills_count, st.assists_count,
              st.objectives_count⟩
    heatmap_data := ⟨st.deaths, st.kills, st.assists, st.objectives⟩
    timeline_data := ⟨format_timeline_data st.tDeaths total_matches,
                      format_timeline_data st.tKills total_matches,
                      format_timeline_data st.tAssists total_matches,
                      format_timeline_data st.tObjectives total_matches⟩ }

/-- `generate_heatmap_data` (lines 44-221): empty-corpus short-circuit
(lines 54-57), else the full pipeline. -/
def generate_heatmap_data (matchDb : String → Option (List String))
    (files : List CorpusFile) (target_puuid player_name : String) : Response :=
  if files.isEmpty then empty_response target_puuid player_name
  else mkResponse matchDb files target_puuid player_name

/-- Keys of the returned dict literal (lines 215-221). -/
def responseTopKeys : List String :=
  ["player_puuid", "player_name", "stats", "heatmap_data", "timeline_data"]

/-- Keys of the `stats` dict literal (lines 90-96). -/
def statsKeys : List String :=
  ["total_matches", "deaths_count", "kills_count", "assists_count", "objectives_count"]

/-- Keys of one timeline series entry dict (lines 241-246). -/
def timelineEntryKeys : List String :=
  ["minute", "count", "cumulative", "average_per_game"]

/-- The spec's data-model invariant (§3): event timestamps are non-negative
(assumed, not enforced, by the minute-bucket derivation). -/
def goodEvent (e : Event) : Bool :=
  match e.timestamp with
  | none => true
  | some ts => decide (0 ≤ ts)

def goodFrame (fr : Frame) : Bool := fr.events.all goodEvent

def goodFile (f : CorpusFile) : Bool :=
  match f.content with
  | none => true
  | some rec =>
    match rec.info with
    | none => true
    | some frames => frames.all goodFrame

def goodCorpus (files : List CorpusFile) : Bool := files.all goodFile

/-! ### Concrete example data used by witnesses and counterexamples -/

/-- Match corpus with one match `M1` whose participant list is `["P1"]`
(so `P1` resolves to participant index 1). -/
def exDb : String → Option (List String) :=
  fun m => if m = "M1" then some ["P1"] else none

/-- A champion kill by participant 1 against participant 2 at 65000 ms. -/
def exKillEvent : Event :=
  ⟨some [("x", 100), ("y", 200)], some 65000, some "CHAMPION_KILL",
   some 1, some 2, [], none, none⟩

/-- A well-formed timeline file for `M1` holding one frame with one event. -/
def exFile : CorpusFile :=
  ⟨"timeline_M1.json", some ⟨"M1", some [⟨[exKillEvent]⟩]⟩⟩

/-- A champion-kill event where participant 3 is simultaneously victim,
killer, and assisting participant. -/
def exDeathEvent : Event :=
  ⟨some [("x", 100), ("y", 200)], some 65000, some "CHAMPION_KILL",
   some 3, some 3, [3], none, none⟩

/-- A positioned event with no `timestamp` key: processing it raises. -/
def exBadEvent : Event :=
  ⟨some [("x", 1), ("y", 1)], none, none, none, none, [], none, none⟩

/-- A timeline file whose record raises midway: the first event is a valid
kill, the second raises. -/
def exMidFailFile : CorpusFile :=
  ⟨"timeline_M1.json", some ⟨"M1", some [⟨[exKillEvent, exBadEvent]⟩]⟩⟩

/-- A timeline file whose read/parse fails outright. -/
def exFailFile : CorpusFile := ⟨"timeline_bad.json", none⟩

/-- A champion-kill event with no position key at all. -/
def exNoPosEvent : Event :=
  ⟨none, some 1000, some "CHAMPION_KILL", some 1, some 1, [1], none, none⟩

/-- A champion-kill event whose position is present but an empty object. -/
def exEmptyPosEvent : Event :=
  ⟨some [], some 1000, some "CHAMPION_KILL", some 1, some 1, [1], none, none⟩

/-! ### Basic skip lemmas -/

/-- An event with a missing position key is skipped without mutation or raise
(line 127). -/
lemma processEvent_no_position (pid : Int) (mid : String) (st : AggState)
    (e : Event) (h : e.position = none) : processEvent pid mid st e = .ok st := by
  unfold processEvent
  rw [h]

/-- An event whose position is present but falsy is skipped the same way. -/
lemma processEvent_falsy_position (pid : Int) (mid : String) (st : AggState)
    (e : Event) (h : e.position = some []) : processEvent pid mid st e = .ok st := by
  unfold processEvent
  rw [h]
  rfl

/-! ### Claim C1 -/

/-- C1: for a champion-kill event with a (truthy) position, the classification
chain at lines 137-196 checks the death rule first: whenever
`victimId == participantIndex`, the event is recorded as a death — the deaths
point list, deaths counter and deaths minute buckets are extended and nothing
else changes — regardless of `killerId` and `assistingParticipantIds`. -/
theorem champion_kill_victim_always_death (pid : Int) (mid : String)
    (st : AggState) (e : Event) (pos : List (String × Int)) (x y ts : Int)
    (hpos : e.position = some pos) (hne : pos.isEmpty = false)
    (hx : pos.lookup "x" = some x) (hy : pos.lookup "y" = some y)
    (hts : e.timestamp = some ts) (hty : e.type = some "CHAMPION_KILL")
    (hv : e.victimId = some pid) :
    processEvent pid mid st e = .ok { st with
      deaths := st.deaths ++ [⟨x, y, ts, mid, PeerField.killer e.killerId⟩],
      deaths_count := st.deaths_count + 1,
      tDeaths := st.tDeaths ++ [minuteBucket ts] } := by
  unfold processEvent
  rw [hpos, hts, hty]
  simp [hne, hv, hx, hy]

/-- Witness for C1: participant 3 is victim, killer and assisting participant
of the same event; it is classified as a death. -/
theorem champion_kill_victim_always_death_witness :
    processEvent 3 "M1" initState exDeathEvent = .ok { initState with
      deaths := initState.deaths ++
        [⟨100, 200, 65000, "M1", PeerField.killer exDeathEvent.killerId⟩],
      deaths_count := initState.deaths_count + 1,
      tDeaths := initState.tDeaths ++ [minuteBucket 65000] } :=
  champion_kill_victim_always_death 3 "M1" initState exDeathEvent
    [("x", 100), ("y", 200)] 100 200 65000 rfl rfl rfl rfl rfl rfl rfl

/-! ### Claim C10 -/

/-- C10: an event whose position key is present but holds a falsy value (an
empty object) is excluded exactly as if the key were absent: the truthiness
test at line 127 skips it with no contribution and no raise. -/
theorem falsy_position_excluded_like_absent (pid : Int) (mid : String)
    (st : AggState) (e : Event) (h : e.position = some []) :
    processEvent pid mid st e = .ok st ∧
    processEvent pid mid st { e with position := none } = .ok st :=
  ⟨processEvent_falsy_position pid mid st e h,
   processEvent_no_position pid mid st _ rfl⟩

/-- Witness for C10 at a concrete event carrying champion-kill data. -/
theorem falsy_position_excluded_like_absent_witness :
    processEvent 1 "M1" initState exEmptyPosEvent = .ok initState ∧
    processEvent 1 "M1" initState { exEmptyPosEvent with position := none }
      = .ok initState :=
  falsy_position_excluded_like_absent 1 "M1" initState exEmptyPosEvent rfl

/-! ### Claim C9 -/

/-- C9: with no timeline records at all, the aggregator short-circuits to the
canonical empty result (lines 54-57): zero total matches, all four counters
zero, all four heatmap lists and all four timeline series empty — and the
result does not depend on the match corpus at all (no resolution occurs). -/
theorem empty_corpus_canonical_empty (matchDb : String → Option (List String))
    (p n : String) :
    generate_heatmap_data matchDb [] p n = empty_response p n ∧
    (generate_heatmap_data matchDb [] p n).stats.total_matches = 0 ∧
    (generate_heatmap_data matchDb [] p n).stats.deaths_count = 0 ∧
    (generate_heatmap_data matchDb [] p n).stats.kills_count = 0 ∧
    (generate_heatmap_data matchDb [] p n).stats.assists_count = 0 ∧
    (generate_heatmap_data matchDb [] p n).stats.objectives_count = 0 ∧
    (generate_heatmap_data matchDb [] p n).heatmap_data.deaths = [] ∧
    (generate_heatmap_data matchDb [] p n).heatmap_data.kills = [] ∧
    (generate_heatmap_data matchDb [] p n).heatmap_data.assists = [] ∧
    (generate_heatmap_data matchDb [] p n).heatmap_data.objectives = [] ∧
    (generate_heatmap_data matchDb [] p n).timeline_data.deaths = [] ∧
    (generate_heatmap_data matchDb [] p n).timeline_data.kills = [] ∧
    (generate_heatmap_data matchDb [] p n).timeline_data.assists = [] ∧
    (generate_heatmap_data matchDb [] p n).timeline_data.objectives = [] :=
  ⟨rfl, rfl, rfl, rfl, rfl, rfl, rfl, rfl, rfl, rfl, rfl, rfl, rfl, rfl⟩

/-! ### Claim C3 -/

/-- C3 counterexample: the returned record's field names are not those the
claim lists — the top level uses `player_puuid`/`stats`/`heatmap_data`/
`timeline_data` (not `player_id`/`summary`/`heatmap`/`timeline`) and timeline
entries use `average_per_game` (not `average_per_match`). -/
theorem result_shape_counterexample :
    responseTopKeys ≠ ["player_id", "player_name", "summary", "heatmap", "timeline"] ∧
    timelineEntryKeys ≠ ["minute", "count", "cumulative", "average_per_match"] := by
  constructor <;> decide

/-- C3 amended: the result record's fields are named exactly `player_puuid`,
`player_name`, `stats` (with `total_matches`, `deaths_count`, `kills_count`,
`assists_count`, `objectives_count`), `heatmap_data` and `timeline_data`, and
each timeline entry is `{minute, count, cumulative, average_per_game}`; the
identity fields carry the invocation's puuid and display name. -/
theorem result_shape_amended (matchDb : String → Option (List String))
    (files : List CorpusFile) (p n : String) :
    responseTopKeys = ["player_puuid", "player_name", "stats", "heatmap_data",
      "timeline_data"] ∧
    statsKeys = ["total_matches", "deaths_count", "kills_count",
      "assists_count", "objectives_count"] ∧
    timelineEntryKeys = ["minute", "count", "cumulative", "average_per_game"] ∧
    (generate_heatmap_data matchDb files p n).player_puuid = p ∧
    (generate_heatmap_data matchDb files p n).player_name = n := by
  refine ⟨rfl, rfl, rfl, ?_, ?_⟩ <;>
    · unfold generate_heatmap_data
      split <;> rfl

/-! ### List traversal lemmas -/

lemma isEmpty_append_cons {α : Type _} (l1 l2 : List α) (a : α) :
    (l1 ++ a :: l2).isEmpty = false := by
  cases l1 <;> rfl

lemma foldl_congr_middle {α β : Type _} (g : β → α → β) (init : β)
    (l1 l2 : List α) (a b : α) (h : ∀ x, g x a = g x b) :
    List.foldl g init (l1 ++ a :: l2) = List.foldl g init (l1 ++ b :: l2) := by
  rw [List.foldl_append, List.foldl_append, List.foldl_cons, List.foldl_cons, h]

lemma foldl_skip_middle {α β : Type _} (g : β → α → β) (init : β)
    (l1 l2 : List α) (a : α) (h : ∀ x, g x a = x) :
    List.foldl g init (l1 ++ a :: l2) = List.foldl g init (l1 ++ l2) := by
  rw [List.foldl_append, List.foldl_append, List.foldl_cons, h]

/-- Dropping a positionless event from an event list does not change the event
loop's outcome. -/
lemma processEventList_skip_middle (pid : Int) (mid : String)
    (es1 es2 : List Event) (e : Event) (he : e.position = none) :
    ∀ st, processEventList pid mid st (es1 ++ e :: es2)
        = processEventList pid mid st (es1 ++ es2) := by
  induction es1 with
  | nil =>
    intro st
    simp only [List.nil_append, processEventList,
      processEvent_no_position pid mid st e he]
  | cons e1 es ih =>
    intro st
    simp only [List.cons_append, processEventList]
    cases processEvent pid mid st e1 with
    | ok st2 => exact ih st2
    | error u => rfl

/-- Replacing one frame by a frame with an equivalent event loop does not
change the frame loop's outcome. -/
lemma processFrameList_congr_middle (pid : Int) (mid : String)
    (fs1 fs2 : List Frame) (frA frB : Frame)
    (h : ∀ s, processEventList pid mid s frA.events
            = processEventList pid mid s frB.events) :
    ∀ st, processFrameList pid mid st (fs1 ++ frA :: fs2)
        = processFrameList pid mid st (fs1 ++ frB :: fs2) := by
  induction fs1 with
  | nil =>
    intro st
    simp only [List.nil_append, processFrameList, h st]
  | cons f fs ih =>
    intro st
    simp only [List.cons_append, processFrameList]
    cases processEventList pid mid st f.events with
    | ok st2 => exact ih st2
    | error st2 => rfl

/-- A file whose read/parse failed contributes nothing to the first pass. -/
lemma buildMapStep_content_none (matchDb : String → Option (List String))
    (p : String) (f : CorpusFile) (hf : f.content = none) :
    ∀ m, buildMapStep matchDb p m f = m := by
  intro m
  unfold buildMapStep
  split
  · rfl
  · rw [hf]

/-- A file whose read/parse failed contributes nothing to the second pass. -/
lemma processFile_content_none (f : CorpusFile) (hf : f.content = none) :
    ∀ pm st, processFile pm st f = st := by
  intro pm st
  unfold processFile
  split
  · rfl
  · rw [hf]

/-! ### Claim C2 -/

/-- C2 counterexample: a record whose second event raises (missing
`timestamp`) fails during processing, yet its first event's contribution is
kept: the aggregate over `[exMidFailFile]` records one kill (and one match),
while the aggregate over the corpus without that record records none — the two
results differ, though no exception escapes (a result is returned). -/
theorem midrecord_raise_keeps_contributions :
    processEventList 1 "M1" initState [exKillEvent, exBadEvent]
      = .error { initState with
          kills := [⟨100, 200, 65000, "M1", PeerField.victim (some 2)⟩],
          kills_count := 1,
          tKills := [1] } ∧
    (generate_heatmap_data exDb [exMidFailFile] "P1" "N").stats.kills_count = 1 ∧
    (generate_heatmap_data exDb [] "P1" "N").stats.kills_count = 0 ∧
    generate_heatmap_data exDb [exMidFailFile] "P1" "N"
      ≠ generate_heatmap_data exDb [] "P1" "N" := by
  refine ⟨rfl, rfl, rfl, fun hcon => ?_⟩
  have h1 := congrArg (fun r => r.stats.kills_count) hcon
  exact Nat.one_ne_zero h1

/-- C2 amended: a timeline record on which the read/JSON-parse itself fails
(before any event is processed) contributes nothing — the result is identical
to the result over the corpus without that record, and no failure propagates.
(A failure raised midway through a record's event loop, by contrast, only
stops that record's remaining events; contributions already made are kept.) -/
theorem parse_failed_record_contributes_nothing
    (matchDb : String → Option (List String)) (p n : String)
    (l1 l2 : List CorpusFile) (f : CorpusFile) (hf : f.content = none) :
    generate_heatmap_data matchDb (l1 ++ f :: l2) p n
      = generate_heatmap_data matchDb (l1 ++ l2) p n := by
  have hmap : buildMap matchDb p (l1 ++ f :: l2) = buildMap matchDb p (l1 ++ l2) :=
    foldl_skip_middle _ _ _ _ _ (buildMapStep_content_none matchDb p f hf)
  have hfold : ∀ pm, List.foldl (processFile pm) initState (l1 ++ f :: l2)
      = List.foldl (processFile pm) initState (l1 ++ l2) :=
    fun pm => foldl_skip_middle _ _ _ _ _ (fun st => processFile_content_none f hf pm st)
  by_cases hll : (l1 ++ l2).isEmpty
  · -- the surrounding corpus is empty: the left side runs the full pipeline
    -- on the single unreadable record and still produces the empty response
    have h1 : l1 = [] := by
      cases l1 with
      | nil => rfl
      | cons a as => simp [List.isEmpty] at hll
    subst h1
    have h2 : l2 = [] := by
      cases l2 with
      | nil => rfl
      | cons a as => simp [List.isEmpty] at hll
    subst h2
    show generate_heatmap_data matchDb [f] p n = generate_heatmap_data matchDb [] p n
    unfold generate_heatmap_data mkResponse
    simp only [List.isEmpty_cons, List.isEmpty_nil, Bool.false_eq_true, if_false,
      if_true, buildMap, List.foldl_cons, List.foldl_nil,
      buildMapStep_content_none matchDb p f hf,
      processFile_content_none f hf]
    rfl
  · simp only [generate_heatmap_data, isEmpty_append_cons, Bool.false_eq_true,
      if_false, hll, mkResponse]
    rw [hmap, hfold]

/-- Witness for C2's amended claim: removing an unreadable record from a
two-record corpus leaves the result unchanged. -/
theorem parse_failed_record_contributes_nothing_witness :
    generate_heatmap_data exDb ([] ++ exFailFile :: [exFile]) "P1" "N"
      = generate_heatmap_data exDb ([] ++ [exFile]) "P1" "N" :=
  parse_failed_record_contributes_nothing exDb "P1" "N" [] [exFile] exFailFile rfl

/-! ### Claim C8 -/

/-- C8: an event lacking a position contributes to no output component —
deleting it from its record leaves the entire aggregation result unchanged,
whatever its type tag and participant id fields. -/
theorem positionless_event_no_contribution
    (matchDb : String → Option (List String)) (p n nm mid : String)
    (l1 l2 : List CorpusFile) (fs1 fs2 : List Frame) (es1 es2 : List Event)
    (e : Event) (he : e.position = none) :
    generate_heatmap_data matchDb
        (l1 ++ (⟨nm, some ⟨mid, some (fs1 ++ (⟨es1 ++ e :: es2⟩ : Frame) :: fs2)⟩⟩ : CorpusFile) :: l2) p n
      = generate_heatmap_data matchDb
        (l1 ++ (⟨nm, some ⟨mid, some (fs1 ++ (⟨es1 ++ es2⟩ : Frame) :: fs2)⟩⟩ : CorpusFile) :: l2) p n := by
  have hev : ∀ pid s, processEventList pid mid s (es1 ++ e :: es2)
      = processEventList pid mid s (es1 ++ es2) :=
    fun pid => processEventList_skip_middle pid mid es1 es2 e he
  have hfileeq : ∀ pm st,
      processFile pm st ⟨nm, some ⟨mid, some (fs1 ++ (⟨es1 ++ e :: es2⟩ : Frame) :: fs2)⟩⟩
        = processFile pm st ⟨nm, some ⟨mid, some (fs1 ++ (⟨es1 ++ es2⟩ : Frame) :: fs2)⟩⟩ := by
    intro pm st
    by_cases hnm : nm = "fetch_summary.json"
    · simp [processFile, hnm]
    · simp only [processFile, hnm, Bool.false_eq_true, if_false]
      cases hpm : pm.lookup mid with
      | none => rfl
      | some pid =>
        exact congrArg exceptState
          (processFrameList_congr_middle pid mid fs1 fs2 _ _ (hev pid) st)
  have hmap : buildMap matchDb p
        (l1 ++ (⟨nm, some ⟨mid, some (fs1 ++ (⟨es1 ++ e :: es2⟩ : Frame) :: fs2)⟩⟩ : CorpusFile) :: l2)
      = buildMap matchDb p
        (l1 ++ (⟨nm, some ⟨mid, some (fs1 ++ (⟨es1 ++ es2⟩ : Frame) :: fs2)⟩⟩ : CorpusFile) :: l2) :=
    foldl_congr_middle _ _ _ _ _ _ (fun m => rfl)
  have hfold : ∀ pm,
      List.foldl (processFile pm) initState
        (l1 ++ (⟨nm, some ⟨mid, some (fs1 ++ (⟨es1 ++ e :: es2⟩ : Frame) :: fs2)⟩⟩ : CorpusFile) :: l2)
      = List.foldl (processFile pm) initState
        (l1 ++ (⟨nm, some ⟨mid, some (fs1 ++ (⟨es1 ++ es2⟩ : Frame) :: fs2)⟩⟩ : CorpusFile) :: l2) :=
    fun pm => foldl_congr_middle _ _ _ _ _ _ (hfileeq pm)
  simp only [generate_heatmap_data, isEmpty_append_cons, Bool.false_eq_true,
    if_false, mkResponse]
  rw [hmap, hfold]

/-- Witness for C8: a positionless champion-kill event (whose victim, killer
and assist ids all match the player) contributes nothing to the result. -/
theorem positionless_event_no_contribution_witness :
    generate_heatmap_data exDb
        ([] ++ (⟨"timeline_M1.json", some ⟨"M1", some ([] ++ (⟨[exKillEvent] ++ exNoPosEvent :: []⟩ : Frame) :: [])⟩⟩ : CorpusFile) :: []) "P1" "N"
      = generate_heatmap_data exDb
        ([] ++ (⟨"timeline_M1.json", some ⟨"M1", some ([] ++ (⟨[exKillEvent] ++ []⟩ : Frame) :: [])⟩⟩ : CorpusFile) :: []) "P1" "N" :=
  positionless_event_no_contribution exDb "P1" "N" "timeline_M1.json" "M1"
    [] [] [] [] [exKillEvent] [] exNoPosEvent rfl

/-! ### Counting lemmas for the minute-bucket representation -/

lemma sum_map_zero {α : Type _} : ∀ r : List α, (r.map (fun _ => (0 : Nat))).sum = 0 := by
  intro r
  induction r with
  | nil => rfl
  | cons y ys ih => simp only [List.map_cons, List.sum_cons, ih]

lemma sum_map_add (f g : Int → Nat) :
    ∀ r : List Int, (r.map (fun m => f m + g m)).sum = (r.map f).sum + (r.map g).sum := by
  intro r
  induction r with
  | nil => rfl
  | cons y ys ih =>
    simp only [List.map_cons, List.sum_cons, ih]
    omega

lemma sum_map_indicator (x : Int) : ∀ r : List Int,
    (r.map (fun m => if m = x then (1 : Nat) else 0)).sum = r.count x := by
  intro r
  induction r with
  | nil => rfl
  | cons y ys ih =>
    rcases eq_or_ne y x with h | h
    · subst h
      simp [List.count_cons, ih, Nat.add_comm]
    · simp [List.count_cons, ih, h]

lemma count_intRange (x : Int) : ∀ n : Nat,
    ((List.range n).map Int.ofNat).count x
      = if 0 ≤ x ∧ x < (n : Int) then 1 else 0 := by
  intro n
  induction n with
  | zero =>
    simp only [List.range_zero, List.map_nil, List.count_nil]
    rw [if_neg (by omega)]
  | succ n ih =>
    rw [List.range_succ]
    simp only [List.map_append, List.map_cons, List.map_nil, List.count_append,
      List.count_cons, List.count_nil, ih, beq_iff_eq, Int.ofNat_eq_natCast]
    split_ifs <;> omega

/-- Summing the per-minute counts of a list of recorded minutes over an
integer range covering all of them recovers the number of recorded minutes. -/
lemma sum_counts_eq_length (n : Nat) : ∀ l : List Int,
    (∀ x ∈ l, 0 ≤ x ∧ x < (n : Int)) →
    (((List.range n).map Int.ofNat).map (fun m => l.count m)).sum = l.length := by
  intro l
  induction l with
  | nil =>
    intro _
    simp only [List.count_nil]
    exact sum_map_zero _
  | cons x xs ih =>
    intro hb
    have hx := hb x (List.mem_cons_self x xs)
    have hxs : ∀ y ∈ xs, 0 ≤ y ∧ y < (n : Int) :=
      fun y hy => hb y (List.mem_cons_of_mem x hy)
    have hcount : ∀ m : Int,
        (x :: xs).count m = xs.count m + (if m = x then 1 else 0) := by
      intro m
      rcases eq_or_ne m x with h | h
      · subst h; simp [List.count_cons]
      · simp [List.count_cons, h, Ne.symm h]
    simp only [hcount]
    rw [sum_map_add (fun m => xs.count m) (fun m => if m = x then 1 else 0),
      ih hxs, sum_map_indicator, count_intRange, if_pos hx]
    simp

/-! ### The largest bucket key -/

lemma le_foldl_max : ∀ (ms : List Int) (a : Int),
    a ≤ ms.foldl max a ∧ ∀ x ∈ ms, x ≤ ms.foldl max a := by
  intro ms
  induction ms with
  | nil => intro a; exact ⟨le_refl a, by simp⟩
  | cons b bs ih =>
    intro a
    simp only [List.foldl_cons]
    refine ⟨le_trans (le_max_left a b) (ih (max a b)).1, ?_⟩
    intro x hx
    rcases List.mem_cons.mp hx with h | h
    · subst h
      exact le_trans (le_max_right a x) (ih (max a x)).1
    · exact (ih (max a b)).2 x h

lemma foldl_max_mem : ∀ (ms : List Int) (a : Int),
    ms.foldl max a = a ∨ ms.foldl max a ∈ ms := by
  intro ms
  induction ms with
  | nil => intro a; exact Or.inl rfl
  | cons b bs ih =>
    intro a
    simp only [List.foldl_cons]
    rcases ih (max a b) with h | h
    · rcases max_choice a b with hm | hm
      · exact Or.inl (by rw [h, hm])
      · exact Or.inr (by rw [h, hm]; exact List.mem_cons_self b bs)
    · exact Or.inr (List.mem_cons_of_mem b h)

lemma maxKey_mem (l : List Int) (h : l ≠ []) : maxKey l ∈ l := by
  cases l with
  | nil => exact absurd rfl h
  | cons m ms =>
    show List.foldl max m ms ∈ m :: ms
    rcases foldl_max_mem ms m with h1 | h1
    · rw [h1]; exact List.mem_cons_self m ms
    · exact List.mem_cons_of_mem m h1

lemma le_maxKey (l : List Int) (x : Int) (hx : x ∈ l) : x ≤ maxKey l := by
  cases l with
  | nil => simp at hx
  | cons m ms =>
    show x ≤ List.foldl max m ms
    rcases List.mem_cons.mp hx with h | h
    · subst h; exact (le_foldl_max ms x).1
    · exact (le_foldl_max ms m).2 x h

/-! ### Structure of the finalized series -/

lemma buildEntries_length (b : List Int) (t : Nat) :
    ∀ (l : List Int) (c : Nat), (buildEntries b t l c).length = l.length := by
  intro l
  induction l with
  | nil => intro c; rfl
  | cons m ms ih =>
    intro c
    simp only [buildEntries, List.length_cons, ih]

lemma buildEntries_map_count (b : List Int) (t : Nat) :
    ∀ (l : List Int) (c : Nat),
      (buildEntries b t l c).map TimelineEntry.count = l.map (fun m => b.count m) := by
  intro l
  induction l with
  | nil => intro c; rfl
  | cons m ms ih =>
    intro c
    simp only [buildEntries, List.map_cons, ih]

lemma buildEntries_getElem (b : List Int) (t : Nat) :
    ∀ (l : List Int) (c i : Nat) (ent : TimelineEntry),
      (buildEntries b t l c)[i]? = some ent →
      ∃ m, l[i]? = some m ∧ ent.minute = m ∧ ent.count = b.count m ∧
        ent.cumulative = c + ((l.take (i + 1)).map (fun m => b.count m)).sum := by
  intro l
  induction l with
  | nil =>
    intro c i ent h
    simp [buildEntries] at h
  | cons m ms ih =>
    intro c i ent h
    cases i with
    | zero =>
      simp only [buildEntries, List.getElem?_cons_zero, Option.some.injEq] at h
      subst h
      refine ⟨m, by simp, rfl, rfl, ?_⟩
      simp [List.take_succ_cons]
    | succ i =>
      simp only [buildEntries, List.getElem?_cons_succ] at h
      obtain ⟨m2, hm2, h1, h2, h3⟩ := ih (c + b.count m) i ent h
      refine ⟨m2, by simpa using hm2, h1, h2, ?_⟩
      rw [List.take_succ_cons, List.map_cons, List.sum_cons, h3]
      omega

/-- The empty-bucket clause of `_format_timeline_data` (lines 228-229). -/
lemma format_nil (t : Nat) : format_timeline_data [] t = [] := rfl

lemma isEmpty_eq_false_of_ne_nil {α : Type _} {l : List α} (h : l ≠ []) :
    l.isEmpty = false := by
  cases l with
  | nil => exact absurd rfl h
  | cons a as => rfl

lemma format_length (l : List Int) (t : Nat) (hne : l ≠ []) :
    (format_timeline_data l t).length = (maxKey l + 1).toNat := by
  unfold format_timeline_data
  rw [isEmpty_eq_false_of_ne_nil hne]
  simp only [Bool.false_eq_true, if_false, buildEntries_length]
  unfold intRange
  simp

/-- Bounds used to cover every recorded minute by `range(0, maxKey + 1)`. -/
lemma bucket_bounds (l : List Int) (hne : l ≠ []) (hnn : ∀ m ∈ l, 0 ≤ m) :
    ∀ x ∈ l, 0 ≤ x ∧ x < (((maxKey l + 1).toNat : Nat) : Int) := by
  intro x hx
  have h1 := le_maxKey l x hx
  have h2 := hnn x hx
  have h3 := hnn (maxKey l) (maxKey_mem l hne)
  omega

/-- Summing per-minute counts over the finalized series recovers the number of
recorded events (format-level form of C5's invariant). -/
lemma format_map_count_sum (l : List Int) (t : Nat) (hnn : ∀ m ∈ l, 0 ≤ m) :
    ((format_timeline_data l t).map TimelineEntry.count).sum = l.length := by
  by_cases hne : l = []
  · subst hne; rfl
  · unfold format_timeline_data
    rw [isEmpty_eq_false_of_ne_nil hne]
    simp only [Bool.false_eq_true, if_false, buildEntries_map_count]
    unfold intRange
    exact sum_counts_eq_length (maxKey l + 1).toNat l (bucket_bounds l hne hnn)

/-- The last entry of a non-empty finalized series carries cumulative equal to
the number of recorded events (format-level form of C6's invariant). -/
lemma format_getLast_cumulative (l : List Int) (t : Nat) (hne : l ≠ [])
    (hnn : ∀ m ∈ l, 0 ≤ m) :
    (format_timeline_data l t).getLast?.map TimelineEntry.cumulative
      = some l.length := by
  have hmax0 : 0 ≤ maxKey l := hnn (maxKey l) (maxKey_mem l hne)
  have hlen := format_length l t hne
  have hpos : 0 < (format_timeline_data l t).length := by rw [hlen]; omega
  obtain ⟨ent, hent⟩ : ∃ ent,
      (format_timeline_data l t)[(format_timeline_data l t).length - 1]? = some ent := by
    cases hcase : (format_timeline_data l t)[(format_timeline_data l t).length - 1]? with
    | none =>
      rw [List.getElem?_eq_none_iff] at hcase
      omega
    | some a => exact ⟨a, rfl⟩
  rw [List.getLast?_eq_getElem?, hent]
  have hform : format_timeline_data l t
      = buildEntries l t (intRange (maxKey l + 1)) 0 := by
    unfold format_timeline_data
    rw [isEmpty_eq_false_of_ne_nil hne]
    simp
  rw [hform] at hent
  obtain ⟨m, hm, h1, h2, h3⟩ := buildEntries_getElem l t (intRange (maxKey l + 1))
    0 _ ent hent
  have hlenrange : (intRange (maxKey l + 1)).length = (maxKey l + 1).toNat := by
    unfold intRange; simp
  have hblen : (buildEntries l t (intRange (maxKey l + 1)) 0).length
      = (intRange (maxKey l + 1)).length := buildEntries_length _ _ _ _
  have hpos2 : 0 < (buildEntries l t (intRange (maxKey l + 1)) 0).length := by
    rw [← hform]; exact hpos
  have hidx : (buildEntries l t (intRange (maxKey l + 1)) 0).length - 1 + 1
      = (intRange (maxKey l + 1)).length := by
    rw [hblen] at hpos2 ⊢
    omega
  rw [hidx, List.take_length] at h3
  unfold intRange at h3
  rw [sum_counts_eq_length (maxKey l + 1).toNat l (bucket_bounds l hne hnn)] at h3
  simp [h3]

/-! ### Claim C4 -/

/-- Bridge between list sums over `List.range` and `Finset.range` sums. -/
lemma sum_map_list_range (f : Nat → Nat) :
    ∀ n : Nat, ((List.range n).map f).sum = ∑ j ∈ Finset.range n, f j := by
  intro n
  induction n with
  | zero => rfl
  | succ n ih =>
    rw [List.range_succ, Finset.sum_range_succ, List.map_append, List.sum_append,
      ← ih]
    simp

/-- C4: finalization of a category's minute buckets.  With no recorded events
the series is empty; otherwise there is exactly one entry per integer minute
from 0 through `maxKey` (the largest — and a fortiori largest non-zero-count —
recorded minute) inclusive, whose raw count is the bucket count at that minute
(0 at gap minutes) and whose cumulative is the running sum of raw counts from
minute 0 through the current minute.  (Timestamps, hence minutes, are
non-negative per the spec's data-model invariant.) -/
theorem timeline_series_dense_gapfilled (l : List Int) (t : Nat)
    (hne : l ≠ []) (hnn : ∀ m ∈ l, 0 ≤ m) :
    format_timeline_data [] t = [] ∧
    0 < l.count (maxKey l) ∧
    (∀ m : Int, 0 < l.count m → m ≤ maxKey l) ∧
    (format_timeline_data l t).length = (maxKey l).toNat + 1 ∧
    (∀ (i : Nat) (ent : TimelineEntry),
      (format_timeline_data l t)[i]? = some ent →
        ent.minute = (i : Int) ∧
        ent.count = l.count ((i : Nat) : Int) ∧
        ent.cumulative = ∑ j ∈ Finset.range (i + 1), l.count ((j : Nat) : Int)) := by
  have hmax0 : 0 ≤ maxKey l := hnn (maxKey l) (maxKey_mem l hne)
  refine ⟨rfl, ?_, ?_, ?_, ?_⟩
  · exact List.count_pos_iff.mpr (maxKey_mem l hne)
  · intro m hm
    exact le_maxKey l m (List.count_pos_iff.mp hm)
  · rw [format_length l t hne]; omega
  · intro i ent h
    have hform : format_timeline_data l t
        = buildEntries l t (intRange (maxKey l + 1)) 0 := by
      unfold format_timeline_data
      rw [isEmpty_eq_false_of_ne_nil hne]
      simp
    rw [hform] at h
    obtain ⟨m, hm, h1, h2, h3⟩ := buildEntries_getElem l t _ 0 i ent h
    have hlr : (intRange (maxKey l + 1)).length = (maxKey l + 1).toNat := by
      unfold intRange; simp
    have hiR : i < (List.range (maxKey l + 1).toNat).length := by
      by_contra hcon
      have hnone : (intRange (maxKey l + 1))[i]? = none := by
        apply List.getElem?_eq_none
        rw [hlr]
        simp only [List.length_range] at hcon
        omega
      rw [hnone] at hm
      exact Option.noConfusion hm
    have hmi : m = (i : Int) := by
      unfold intRange at hm
      rw [List.getElem?_map, List.getElem?_eq_getElem hiR] at hm
      simp [List.getElem_range, Int.ofNat_eq_natCast] at hm
      omega
    subst hmi
    refine ⟨h1, h2, ?_⟩
    rw [h3]
    have htake : (intRange (maxKey l + 1)).take (i + 1)
        = (List.range (i + 1)).map Int.ofNat := by
      unfold intRange
      rw [← List.map_take, List.take_range,
        min_eq_left (by simp only [List.length_range] at hiR; omega)]
    rw [htake]
    rw [show ((List.range (i + 1)).map Int.ofNat).map (fun m => l.count m)
        = (List.range (i + 1)).map (fun j => l.count (Int.ofNat j)) by
      rw [List.map_map]; rfl]
    rw [sum_map_list_range (fun j => l.count (Int.ofNat j)) (i + 1)]
    simp [Int.ofNat_eq_natCast]

/-- Witness for C4 on the bucket list `[1, 3]` (minutes 1 and 3 recorded):
length 4, counts `0,1,0,1` and cumulatives `0,1,1,2`. -/
theorem timeline_series_dense_gapfilled_witness :
    ([1, 3] : List Int) ≠ [] ∧ (∀ m ∈ ([1, 3] : List Int), 0 ≤ m) ∧
    (format_timeline_data [1, 3] 2).length = (maxKey [1, 3]).toNat + 1 ∧
    (format_timeline_data [1, 3] 2).length = 4 :=
  ⟨by decide, by decide,
   (timeline_series_dense_gapfilled [1, 3] 2 (by decide) (by decide)).2.2.2.1,
   by rw [(timeline_series_dense_gapfilled [1, 3] 2 (by decide) (by decide)).2.2.2.1]; rfl⟩

/-! ### The lockstep invariant of the second pass: every classification appends
one heatmap point, bumps one counter and records one minute bucket, so the
three per-category accumulators stay aligned (and minutes stay non-negative
while timestamps do). -/

def Synced (st : AggState) : Prop :=
  (st.deaths_count = st.deaths.length ∧ st.tDeaths.length = st.deaths.length ∧
    ∀ m ∈ st.tDeaths, 0 ≤ m) ∧
  (st.kills_count = st.kills.length ∧ st.tKills.length = st.kills.length ∧
    ∀ m ∈ st.tKills, 0 ≤ m) ∧
  (st.assists_count = st.assists.length ∧ st.tAssists.length = st.assists.length ∧
    ∀ m ∈ st.tAssists, 0 ≤ m) ∧
  (st.objectives_count = st.objectives.length ∧
    st.tObjectives.length = st.objectives.length ∧ ∀ m ∈ st.tObjectives, 0 ≤ m)

lemma synced_init : Synced initState := by
  refine ⟨⟨rfl, rfl, ?_⟩, ⟨rfl, rfl, ?_⟩, ⟨rfl, rfl, ?_⟩, ⟨rfl, rfl, ?_⟩⟩ <;> simp [initState]

lemma minuteBucket_nonneg (ts : Int) (h : 0 ≤ ts) : 0 ≤ minuteBucket ts :=
  Int.fdiv_nonneg h (by omega)

lemma mem_append_singleton_nonneg {l : List Int} {m x : Int}
    (hl : ∀ y ∈ l, 0 ≤ y) (hm : 0 ≤ m) (hx : x ∈ l ++ [m]) : 0 ≤ x := by
  rcases List.mem_append.mp hx with h | h
  · exact hl x h
  · simp only [List.mem_singleton] at h
    omega

lemma synced_add_death (st : AggState) (hs : Synced st) (p : HeatPoint)
    (m : Int) (hm : 0 ≤ m) :
    Synced { st with deaths := st.deaths ++ [p],
                     deaths_count := st.deaths_count + 1,
                     tDeaths := st.tDeaths ++ [m] } := by
  obtain ⟨⟨h1, h2, h3⟩, hk, ha, ho⟩ := hs
  refine ⟨⟨?_, ?_, ?_⟩, hk, ha, ho⟩
  · simp [List.length_append, h1]
  · simp [List.length_append, h2]
  · exact fun x hx => mem_append_singleton_nonneg h3 hm hx

lemma synced_add_kill (st : AggState) (hs : Synced st) (p : HeatPoint)
    (m : Int) (hm : 0 ≤ m) :
    Synced { st with kills := st.kills ++ [p],
                     kills_count := st.kills_count + 1,
                     tKills := st.tKills ++ [m] } := by
  obtain ⟨hd, ⟨h1, h2, h3⟩, ha, ho⟩ := hs
  refine ⟨hd, ⟨?_, ?_, ?_⟩, ha, ho⟩
  · simp [List.length_append, h1]
  · simp [List.length_append, h2]
  · exact fun x hx => mem_append_singleton_nonneg h3 hm hx

lemma synced_add_assist (st : AggState) (hs : Synced st) (p : HeatPoint)
    (m : Int) (hm : 0 ≤ m) :
    Synced { st with assists := st.assists ++ [p],
                     assists_count := st.assists_count + 1,
                     tAssists := st.tAssists ++ [m] } := by
  obtain ⟨hd, hk, ⟨h1, h2, h3⟩, ho⟩ := hs
  refine ⟨hd, hk, ⟨?_, ?_, ?_⟩, ho⟩
  · simp [List.length_append, h1]
  · simp [List.length_append, h2]
  · exact fun x hx => mem_append_singleton_nonneg h3 hm hx

lemma synced_add_objective (st : AggState) (hs : Synced st) (p : HeatPoint)
    (m : Int) (hm : 0 ≤ m) :
    Synced { st with objectives := st.objectives ++ [p],
                     objectives_count := st.objectives_count + 1,
                     tObjectives := st.tObjectives ++ [m] } := by
  obtain ⟨hd, hk, ha, ⟨h1, h2, h3⟩⟩ := hs
  refine ⟨hd, hk, ha, ⟨?_, ?_, ?_⟩⟩
  · simp [List.length_append, h1]
  · simp [List.length_append, h2]
  · exact fun x hx => mem_append_singleton_nonneg h3 hm hx

lemma processEvent_synced (pid : Int) (mid : String) (st st2 : AggState)
    (e : Event) (hg : goodEvent e = true) (hs : Synced st)
    (h : processEvent pid mid st e = .ok st2) : Synced st2 := by
  have hball : ∀ ts, e.timestamp = some ts → 0 ≤ minuteBucket ts := fun ts hts =>
    minuteBucket_nonneg ts (by unfold goodEvent at hg; rw [hts] at hg; simpa using hg)
  unfold processEvent at h
  repeat' split at h
  all_goals try exact Except.noConfusion h
  all_goals injection h with h2
  all_goals subst h2
  all_goals first
    | exact hs
    | exact synced_add_death st hs _ _ (hball _ (by assumption))
    | exact synced_add_kill st hs _ _ (hball _ (by assumption))
    | exact synced_add_assist st hs _ _ (hball _ (by assumption))
    | exact synced_add_objective st hs _ _ (hball _ (by assumption))

lemma processEventList_synced (pid : Int) (mid : String) :
    ∀ (es : List Event) (st : AggState), Synced st → es.all goodEvent = true →
      Synced (exceptState (processEventList pid mid st es)) := by
  intro es
  induction es with
  | nil => intro st hs _; exact hs
  | cons e es ih =>
    intro st hs hall
    rw [List.all_cons, Bool.and_eq_true] at hall
    simp only [processEventList]
    cases hpe : processEvent pid mid st e with
    | ok st2 => exact ih st2 (processEvent_synced pid mid st st2 e hall.1 hs hpe) hall.2
    | error u => exact hs

lemma processFrameList_synced (pid : Int) (mid : String) :
    ∀ (fs : List Frame) (st : AggState), Synced st → fs.all goodFrame = true →
      Synced (exceptState (processFrameList pid mid st fs)) := by
  intro fs
  induction fs with
  | nil => intro st hs _; exact hs
  | cons f fs ih =>
    intro st hs hall
    rw [List.all_cons, Bool.and_eq_true] at hall
    have hev := processEventList_synced pid mid f.events st hs hall.1
    simp only [processFrameList]
    cases hpe : processEventList pid mid st f.events with
    | ok st2 =>
      rw [hpe] at hev
      exact ih st2 hev hall.2
    | error st2 =>
      rw [hpe] at hev
      exact hev

lemma processFile_synced (pm : List (String × Int)) (st : AggState)
    (f : CorpusFile) (hs : Synced st) (hf : goodFile f = true) :
    Synced (processFile pm st f) := by
  by_cases hnm : f.name = "fetch_summary.json"
  · simpa [processFile, hnm] using hs
  · cases hc : f.content with
    | none => simpa [processFile, hnm, hc] using hs
    | some rec =>
      cases hpm : pm.lookup rec.matchId with
      | none => simpa [processFile, hnm, hc, hpm] using hs
      | some pid =>
        cases hi : rec.info with
        | none => simpa [processFile, hnm, hc, hpm, hi] using hs
        | some frames =>
          have hfr : frames.all goodFrame = true := by
            unfold goodFile at hf
            simp only [hc, hi] at hf
            exact hf
          have hres : Synced (exceptState (processFrameList pid rec.matchId st frames)) :=
            processFrameList_synced pid rec.matchId frames st hs hfr
          simpa [processFile, hnm, hc, hpm, hi] using hres

lemma foldl_processFile_synced (pm : List (String × Int)) :
    ∀ (files : List CorpusFile) (st : AggState), Synced st →
      files.all goodFile = true → Synced (files.foldl (processFile pm) st) := by
  intro files
  induction files with
  | nil => intro st hs _; exact hs
  | cons f fs ih =>
    intro st hs hall
    rw [List.all_cons, Bool.and_eq_true] at hall
    simp only [List.foldl_cons]
    exact ih (processFile pm st f) (processFile_synced pm st f hs hall.1) hall.2

/-! ### Claim C5 -/

/-- C5: for every invocation (over a corpus satisfying the spec's
non-negative-timestamp invariant) and every category, the sum of the raw
per-minute counts over the finalized temporal series equals the length of that
category's heatmap point sequence in the same result. -/
theorem counts_sum_eq_heatmap_length (matchDb : String → Option (List String))
    (files : List CorpusFile) (p n : String) (h : goodCorpus files = true) :
    (((generate_heatmap_data matchDb files p n).timeline_data.deaths.map
        TimelineEntry.count).sum
      = (generate_heatmap_data matchDb files p n).heatmap_data.deaths.length) ∧
    (((generate_heatmap_data matchDb files p n).timeline_data.kills.map
        TimelineEntry.count).sum
      = (generate_heatmap_data matchDb files p n).heatmap_data.kills.length) ∧
    (((generate_heatmap_data matchDb files p n).timeline_data.assists.map
        TimelineEntry.count).sum
      = (generate_heatmap_data matchDb files p n).heatmap_data.assists.length) ∧
    (((generate_heatmap_data matchDb files p n).timeline_data.objectives.map
        TimelineEntry.count).sum
      = (generate_heatmap_data matchDb files p n).heatmap_data.objectives.length) := by
  unfold generate_heatmap_data
  split
  · simp [empty_response]
  · have hsy : Synced (files.foldl (processFile (buildMap matchDb p files)) initState) :=
      foldl_processFile_synced (buildMap matchDb p files) files initState synced_init h
    obtain ⟨⟨hd1, hd2, hd3⟩, ⟨hk1, hk2, hk3⟩, ⟨ha1, ha2, ha3⟩, ⟨ho1, ho2, ho3⟩⟩ := hsy
    simp only [mkResponse]
    refine ⟨?_, ?_, ?_, ?_⟩
    · rw [format_map_count_sum _ _ hd3, hd2]
    · rw [format_map_count_sum _ _ hk3, hk2]
    · rw [format_map_count_sum _ _ ha3, ha2]
    · rw [format_map_count_sum _ _ ho3, ho2]

/-- Witness for C5 over a one-match corpus with a single kill event: the kills
series counts sum to the kills heatmap length, which is 1. -/
theorem counts_sum_eq_heatmap_length_witness :
    goodCorpus [exFile] = true ∧
    (((generate_heatmap_data exDb [exFile] "P1" "N").timeline_data.kills.map
        TimelineEntry.count).sum
      = (generate_heatmap_data exDb [exFile] "P1" "N").heatmap_data.kills.length) ∧
    (generate_heatmap_data exDb [exFile] "P1" "N").heatmap_data.kills.length = 1 :=
  ⟨by decide,
   (counts_sum_eq_heatmap_length exDb [exFile] "P1" "N" (by decide)).2.1,
   rfl⟩

/-! ### Claim C6 -/

/-- C6: for every invocation (over a corpus satisfying the spec's
non-negative-timestamp invariant), each category whose finalized temporal
series is non-empty has the cumulative value of the series' last entry equal to
that category's summary counter in the same result. -/
theorem last_cumulative_eq_summary_counter (matchDb : String → Option (List String))
    (files : List CorpusFile) (p n : String) (h : goodCorpus files = true) :
    ((generate_heatmap_data matchDb files p n).timeline_data.deaths ≠ [] →
      (generate_heatmap_data matchDb files p n).timeline_data.deaths.getLast?.map
          TimelineEntry.cumulative
        = some (generate_heatmap_data matchDb files p n).stats.deaths_count) ∧
    ((generate_heatmap_data matchDb files p n).timeline_data.kills ≠ [] →
      (generate_heatmap_data matchDb files p n).timeline_data.kills.getLast?.map
          TimelineEntry.cumulative
        = some (generate_heatmap_data matchDb files p n).stats.kills_count) ∧
    ((generate_heatmap_data matchDb files p n).timeline_data.assists ≠ [] →
      (generate_heatmap_data matchDb files p n).timeline_data.assists.getLast?.map
          TimelineEntry.cumulative
        = some (generate_heatmap_data matchDb files p n).stats.assists_count) ∧
    ((generate_heatmap_data matchDb files p n).timeline_data.objectives ≠ [] →
      (generate_heatmap_data matchDb files p n).timeline_data.objectives.getLast?.map
          TimelineEntry.cumulative
        = some (generate_heatmap_data matchDb files p n).stats.objectives_count) := by
  unfold generate_heatmap_data
  split
  · exact ⟨fun hc => absurd rfl hc, fun hc => absurd rfl hc,
      fun hc => absurd rfl hc, fun hc => absurd rfl hc⟩
  · have hsy : Synced (files.foldl (processFile (buildMap matchDb p files)) initState) :=
      foldl_processFile_synced (buildMap matchDb p files) files initState synced_init h
    obtain ⟨⟨hd1, hd2, hd3⟩, ⟨hk1, hk2, hk3⟩, ⟨ha1, ha2, ha3⟩, ⟨ho1, ho2, ho3⟩⟩ := hsy
    simp only [mkResponse]
    refine ⟨fun hne => ?_, fun hne => ?_, fun hne => ?_, fun hne => ?_⟩
    · have hb : (files.foldl (processFile (buildMap matchDb p files)) initState).tDeaths ≠ [] :=
        fun hnil => hne (by rw [hnil, format_nil])
      rw [format_getLast_cumulative _ _ hb hd3, hd2, ← hd1]
    · have hb : (files.foldl (processFile (buildMap matchDb p files)) initState).tKills ≠ [] :=
        fun hnil => hne (by rw [hnil, format_nil])
      rw [format_getLast_cumulative _ _ hb hk3, hk2, ← hk1]
    · have hb : (files.foldl (processFile (buildMap matchDb p files)) initState).tAssists ≠ [] :=
        fun hnil => hne (by rw [hnil, format_nil])
      rw [format_getLast_cumulative _ _ hb ha3, ha2, ← ha1]
    · have hb : (files.foldl (processFile (buildMap matchDb p files)) initState).tObjectives ≠ [] :=
        fun hnil => hne (by rw [hnil, format_nil])
      rw [format_getLast_cumulative _ _ hb ho3, ho2, ← ho1]

/-- Witness for C6 over a one-match corpus with a single kill event: the kills
series is non-empty and its last cumulative equals the kills counter, 1. -/
theorem last_cumulative_eq_summary_counter_witness :
    goodCorpus [exFile] = true ∧
    ((generate_heatmap_data exDb [exFile] "P1" "N").timeline_data.kills.getLast?.map
        TimelineEntry.cumulative
      = some (generate_heatmap_data exDb [exFile] "P1" "N").stats.kills_count) ∧
    (generate_heatmap_data exDb [exFile] "P1" "N").stats.kills_count = 1 := by
  refine ⟨by decide, ?_, rfl⟩
  apply (last_cumulative_eq_summary_counter exDb [exFile] "P1" "N" (by decide)).2.1
  have hlen : (generate_heatmap_data exDb [exFile] "P1" "N").timeline_data.kills.length = 2 := rfl
  intro hcon
  rw [hcon] at hlen
  exact absurd hlen (by decide)
